import Mathlib

/-!
Shallow embedding of `src/mcp-client/client.py` (class `MCPClient`).

The client talks to two external collaborators, modelled as inputs:
  * the MCP tool-server session (`list_tools` / `call_tool`), and
  * the ollama chat backend (`ollama.chat`, buffered for the decision call,
    streamed for the summarization calls).

`process_query` is embedded as a pure function from the query string and an
environment (the decision response, the tool-server's `call_tool` behaviour,
the streamed chunks of each streamed chat call, and the generated uuids) to a
trace recording the returned value, the final conversation history, every chat
call made (with the message list passed to it) and every tool invocation.
Python's `None` return (falling off the end of the function) is `Option.none`.
-/

/-- Role strings used in the messages appended by `process_query`:
"user", "assistant", "tool". -/
inductive Role where
  | user
  | assistant
  | tool
deriving DecidableEq, Repr

/-- The `function` payload of a tool call: `tool.function.name` and
`tool.function.arguments`.  Arguments are kept in their rendered form (the
code only forwards them to `call_tool` and interpolates them into strings). -/
structure ToolCallFn where
  name : String
  arguments : String
deriving DecidableEq, Repr

/-- One element of `message.tool_calls` in the ollama decision response. -/
structure OllamaToolCall where
  function : ToolCallFn
deriving DecidableEq, Repr

/-- The normalized tool-call dict built at client.py lines 126-134:
`{"id": uuid4, "type": "function", "function": {"name", "arguments"}}`. -/
structure ToolCallDict where
  id : String
  type : String
  function : ToolCallFn
deriving DecidableEq, Repr

/-- A conversation message.  `tool_calls = none` models a dict without the
`tool_calls` key; `content = none` models `"content": None`. -/
structure Message where
  role : Role
  content : Option String
  tool_calls : Option (List ToolCallDict)
deriving DecidableEq, Repr

/-- The `message` field of the ollama decision response.  `tool_calls` is
`none` when the attribute is missing or `None` (client.py line 125 guards with
`hasattr(message, "tool_calls") and message.tool_calls`; `some []` is falsy
there too). -/
structure OllamaMessage where
  content : Option String
  tool_calls : Option (List OllamaToolCall)
deriving DecidableEq, Repr

/-- A content block of `result.model_dump()["content"]`.  Only the
`type == "text"` variant is consumed (client.py line 170); every other
variant is skipped. -/
inductive ContentBlock where
  | text (s : String)
  | other (ty : String)
deriving DecidableEq, Repr

/-- `result.model_dump()` of a `call_tool` result: `isError` and `content`. -/
structure ToolResultData where
  isError : Bool
  content : List ContentBlock
deriving DecidableEq, Repr

/-- A JSON-Schema-like value for `tool.inputSchema`; `emptyObj` is the empty
object `\x7b\x7d`. -/
inductive SchemaV where
  | emptyObj
  | node (s : String)
deriving DecidableEq, Repr

/-- A tool descriptor as read by `convert_to_openai_format`: attribute access
on the descriptor, where an absent optional field reads as `None` (`none`). -/
structure Tool where
  name : String
  description : Option String
  inputSchema : Option SchemaV
deriving DecidableEq, Repr

/-- The inner `function` dict of an OpenAI-format function spec. -/
structure FunctionDef where
  name : String
  description : Option String
  parameters : Option SchemaV
deriving DecidableEq, Repr

/-- One entry of the list built by `convert_to_openai_format`. -/
structure FunctionSpec where
  type : String
  function : FunctionDef
deriving DecidableEq, Repr

/-- client.py lines 73-82: build one `{"type": "function", "function":
{"name": tool.name, "description": tool.description, "parameters":
tool.inputSchema}}` per tool, in order.  The attribute values are passed
through unchanged. -/
def convert_to_openai_format (tools : List Tool) : List FunctionSpec :=
  tools.map fun tool =>
    { type := "function"
      function :=
        { name := tool.name
          description := tool.description
          parameters := tool.inputSchema } }

/-- Modelled from the spec: the conversion described in section 4.1 of the
spec, "description (empty string if absent), parameters: inputSchema (empty
object if absent)".  Kept separate from `convert_to_openai_format` (the code)
so the two can be compared. -/
def toChatSchema_specDefaults (tools : List Tool) : List FunctionSpec :=
  tools.map fun tool =>
    { type := "function"
      function :=
        { name := tool.name
          description := some (tool.description.getD "")
          parameters := some (tool.inputSchema.getD SchemaV.emptyObj) } }

/-- Record of one `ollama.chat` call: the message list passed, the `tools`
argument (`none` when the parameter is not passed, as in the streamed call),
whether it streamed, and the chunk contents the stream yielded (`none` for the
non-streamed decision call). -/
structure ChatCall where
  messages : List Message
  tools : Option (List FunctionSpec)
  stream : Bool
  chunks : Option (List String)
deriving DecidableEq, Repr

/-- The external world of one `process_query` run: the tool catalog returned
by `list_tools`, the decision response message of the first `ollama.chat`
call, the behaviour of `session.call_tool`, the chunk contents of the i-th
streamed `ollama.chat` call, and the uuid generated for the i-th tool call. -/
structure Env where
  tools : List Tool
  decision : OllamaMessage
  callTool : String → String → ToolResultData
  streams : Nat → List String
  uuids : Nat → String

/-- What one `process_query` run did: the Python return value (`none` when the
function falls off the end and returns `None`), the final `messages` history,
every `ollama.chat` call in order, and every `session.call_tool` invocation
(name, arguments) in order. -/
structure Trace where
  result : Option String
  messages : List Message
  chatCalls : List ChatCall
  toolInvocations : List (String × String)
deriving DecidableEq, Repr

/-- client.py lines 124-134: rebuild `message.tool_calls` as normalized dicts.
The guard is `hasattr(message, "tool_calls") and message.tool_calls`, so a
missing attribute, `None`, or an empty list all yield `[]`. -/
def normalizeToolCalls (uuids : Nat → String) (message : OllamaMessage) :
    List ToolCallDict :=
  match message.tool_calls with
  | none => []
  | some l =>
      if l.isEmpty then []
      else l.enum.map fun p =>
        { id := uuids p.1, type := "function", function := p.2.function }

/-- client.py line 160: the error return
`f"function call for \x7btool_name\x7d failed with arguments \x7btool_args\x7d"`. -/
def failureMessage (tool_name tool_args : String) : String :=
  "function call for " ++ tool_name ++ " failed with arguments " ++ tool_args

/-- The initial history entry (client.py lines 88-93):
`{"role": "user", "content": query}`. -/
def userMsg (q : String) : Message :=
  ⟨Role.user, some q, none⟩

/-- The message appended per text block (client.py lines 172-175):
`{"role": "tool", "content": content.get("text")}`. -/
def toolMsg (s : String) : Message :=
  ⟨Role.tool, some s, none⟩

/-- The message appended after a successful invocation (client.py lines
163-167): `{"role": "assistant", "content": None, "tool_calls": [tool_call]}`. -/
def pendingMsg (tool_call : ToolCallDict) : Message :=
  ⟨Role.assistant, none, some [tool_call]⟩

/-- The decision chat call (client.py lines 112-117): non-streamed, on the
seeded history, with `tools=available_tools or []` (an empty converted list is
passed as an empty list either way). -/
def decisionCall (q : String) (env : Env) : ChatCall :=
  ⟨[userMsg q], some (convert_to_openai_format env.tools), false, none⟩

/-- State threaded through the `for content in data.get("content", [])` loop
(client.py lines 169-185): the history, the accumulated `final_text` chunks,
the chat calls made so far, and the index of the next streamed chat call. -/
structure FoldState where
  messages : List Message
  final_text : List String
  chatCalls : List ChatCall
  idx : Nat
deriving Repr

/-- client.py lines 169-185: for each `type == "text"` block, append a
`{"role": "tool", "content": block text}` message, make one streamed
`ollama.chat` call on the current history, and extend `final_text` with the
chunk contents in arrival order; every other block is skipped. -/
def foldBlocks (streams : Nat → List String) :
    FoldState → List ContentBlock → FoldState
  | st, [] => st
  | st, ContentBlock.text s :: rest =>
      let msgs := st.messages ++ [toolMsg s]
      let call : ChatCall := ⟨msgs, none, true, some (streams st.idx)⟩
      foldBlocks streams
        ⟨msgs, st.final_text ++ streams st.idx, st.chatCalls ++ [call],
          st.idx + 1⟩ rest
  | st, ContentBlock.other _ :: rest => foldBlocks streams st rest

/-- client.py lines 136-188: the `if tool_calls:` phase, applied to the
normalized tool-call list.  The `for tool_call in tool_calls` loop returns in
its first iteration on every path (line 160 or line 188), so only the head is
processed.  Each element is a dict built at lines 127-134, so the extraction
at lines 141-144 reads `function.name` and `function.arguments` (both keys are
always present there).  With no tool calls, control falls to the end of the
function (everything after line 190 is commented out) and Python returns
`None`. -/
def runToolPhase (q : String) (env : Env) (tool_calls : List ToolCallDict) :
    Trace :=
  match tool_calls with
  | [] => ⟨none, [userMsg q], [decisionCall q env], []⟩
  | tool_call :: _ =>
      let tool_name := tool_call.function.name
      let tool_args := tool_call.function.arguments
      let result := env.callTool tool_name tool_args
      if result.isError then
        ⟨some (failureMessage tool_name tool_args), [userMsg q],
          [decisionCall q env], [(tool_name, tool_args)]⟩
      else
        let st := foldBlocks env.streams
          ⟨[userMsg q, pendingMsg tool_call], [], [decisionCall q env], 0⟩
          result.content
        ⟨some (String.join st.final_text), st.messages, st.chatCalls,
          [(tool_name, tool_args)]⟩

/-- client.py lines 85-188 (`MCPClient.process_query`): seed the history with
the user message, make the decision chat call, normalize its tool calls, and
run the tool phase. -/
def process_query (q : String) (env : Env) : Trace :=
  runToolPhase q env (normalizeToolCalls env.uuids env.decision)

/-- Number of `type == "text"` blocks in a tool result's content list, i.e.
the number of iterations of the loop body at client.py lines 169-185. -/
def countText : List ContentBlock → Nat
  | [] => 0
  | ContentBlock.text _ :: rest => countText rest + 1
  | ContentBlock.other _ :: rest => countText rest

/-- Number of streamed (summarization) chat calls recorded in a trace. -/
def streamCount (t : Trace) : Nat :=
  (t.chatCalls.filter fun c => c.stream).length

/-- Python `str.endswith`: the suffix's character sequence is a suffix of the
string's character sequence. -/
def pyEndsWith (s suffix : String) : Bool :=
  suffix.data.isSuffixOf s.data

/-- client.py lines 44-60 (`MCPClient.connect_to_server`), up to the choice of
launch command: a path ending in neither `.py` nor `.js` raises `ValueError`
before `StdioServerParameters` is built (so before any process launch or
session creation); otherwise the launch command is `python` for `.py` and
`node` for `.js`, with the script path as sole argument. -/
def connect_to_server (server_script_path : String) :
    Except String (String × List String) :=
  let is_python := pyEndsWith server_script_path ".py"
  let is_js := pyEndsWith server_script_path ".js"
  if !(is_python || is_js) then
    Except.error "Server script must be a .py or .js file"
  else
    Except.ok ((if is_python then "python" else "node"), [server_script_path])

/-! ## Helper lemmas -/

theorem getLast?_append_singleton {α : Type} (l : List α) (a : α) :
    (l ++ [a]).getLast? = some a := by
  simp

theorem normalizeToolCalls_cons (uuids : Nat → String) (m : OllamaMessage)
    (tc : OllamaToolCall) (rest : List OllamaToolCall)
    (h : m.tool_calls = some (tc :: rest)) :
    normalizeToolCalls uuids m =
      ⟨uuids 0, "function", tc.function⟩ ::
        ((rest.enumFrom 1).map fun p =>
          ⟨uuids p.1, "function", p.2.function⟩) := by
  simp [normalizeToolCalls, h, List.enum]

theorem runToolPhase_nil (q : String) (env : Env) :
    runToolPhase q env [] = ⟨none, [userMsg q], [decisionCall q env], []⟩ :=
  rfl

theorem runToolPhase_cons_error (q : String) (env : Env) (tc : ToolCallDict)
    (tl : List ToolCallDict)
    (h : (env.callTool tc.function.name tc.function.arguments).isError = true) :
    runToolPhase q env (tc :: tl) =
      ⟨some (failureMessage tc.function.name tc.function.arguments),
        [userMsg q], [decisionCall q env],
        [(tc.function.name, tc.function.arguments)]⟩ := by
  simp [runToolPhase, h]

theorem runToolPhase_cons_ok (q : String) (env : Env) (tc : ToolCallDict)
    (tl : List ToolCallDict)
    (h : (env.callTool tc.function.name tc.function.arguments).isError = false) :
    runToolPhase q env (tc :: tl) =
      let st := foldBlocks env.streams
        ⟨[userMsg q, pendingMsg tc], [], [decisionCall q env], 0⟩
        (env.callTool tc.function.name tc.function.arguments).content
      ⟨some (String.join st.final_text), st.messages, st.chatCalls,
        [(tc.function.name, tc.function.arguments)]⟩ := by
  simp [runToolPhase, h]

theorem foldBlocks_no_text (streams : Nat → List String)
    (blocks : List ContentBlock) :
    ∀ st : FoldState, countText blocks = 0 → foldBlocks streams st blocks = st := by
  induction blocks with
  | nil => intro st _; rfl
  | cons b rest ih =>
      intro st h
      cases b with
      | text s => simp [countText] at h
      | other ty =>
          simp only [countText] at h
          simpa [foldBlocks] using ih st h

theorem foldBlocks_final_text (streams : Nat → List String)
    (blocks : List ContentBlock) :
    ∀ st : FoldState,
      st.final_text = (st.chatCalls.filterMap ChatCall.chunks).flatten →
      (foldBlocks streams st blocks).final_text =
        ((foldBlocks streams st blocks).chatCalls.filterMap ChatCall.chunks).flatten := by
  induction blocks with
  | nil => intro st h; simpa [foldBlocks] using h
  | cons b rest ih =>
      intro st h
      cases b with
      | text s =>
          simp only [foldBlocks]
          apply ih
          simp [h, List.filterMap_append]
      | other ty =>
          simpa [foldBlocks] using ih st h

theorem foldBlocks_streamLen (streams : Nat → List String)
    (blocks : List ContentBlock) :
    ∀ st : FoldState,
      ((foldBlocks streams st blocks).chatCalls.filter fun c => c.stream).length =
        (st.chatCalls.filter fun c => c.stream).length + countText blocks := by
  induction blocks with
  | nil => intro st; simp [foldBlocks, countText]
  | cons b rest ih =>
      intro st
      cases b with
      | text s =>
          simp only [foldBlocks, countText]
          rw [ih]
          simp [List.filter_append]
          omega
      | other ty =>
          simp only [foldBlocks, countText]
          exact ih st

theorem foldBlocks_messages_mono (streams : Nat → List String)
    (blocks : List ContentBlock) :
    ∀ st : FoldState, ∀ m ∈ st.messages,
      m ∈ (foldBlocks streams st blocks).messages := by
  induction blocks with
  | nil => intro st m hm; simpa [foldBlocks] using hm
  | cons b rest ih =>
      intro st m hm
      cases b with
      | text s =>
          simp only [foldBlocks]
          exact ih _ m (by simp [hm])
      | other ty =>
          simpa [foldBlocks] using ih st m hm

theorem foldBlocks_text_mem (streams : Nat → List String)
    (blocks : List ContentBlock) :
    ∀ st : FoldState, ∀ s, ContentBlock.text s ∈ blocks →
      toolMsg s ∈ (foldBlocks streams st blocks).messages := by
  induction blocks with
  | nil => intro st s hs; simp at hs
  | cons b rest ih =>
      intro st s hs
      rcases List.mem_cons.mp hs with heq | hmem
      · cases b with
        | text s0 =>
            cases heq
            simp only [foldBlocks]
            exact foldBlocks_messages_mono streams rest _ (toolMsg s) (by simp)
        | other ty => cases heq
      · cases b with
        | text s0 => simp only [foldBlocks]; exact ih _ s hmem
        | other ty => simpa [foldBlocks] using ih st s hmem

theorem foldBlocks_stream_lastTool (streams : Nat → List String)
    (allB : List ContentBlock) (blocks : List ContentBlock) :
    ∀ st : FoldState,
      (∀ b ∈ blocks, b ∈ allB) →
      (∀ c ∈ st.chatCalls, c.stream = true →
        ∃ s, ContentBlock.text s ∈ allB ∧
          c.messages.getLast? = some (toolMsg s)) →
      ∀ c ∈ (foldBlocks streams st blocks).chatCalls, c.stream = true →
        ∃ s, ContentBlock.text s ∈ allB ∧
          c.messages.getLast? = some (toolMsg s) := by
  induction blocks with
  | nil => intro st _ hst; simpa [foldBlocks] using hst
  | cons b rest ih =>
      intro st hsub hst
      cases b with
      | text s =>
          simp only [foldBlocks]
          apply ih _ (fun b hb => hsub b (by simp [hb]))
          intro c hc hcs
          rcases List.mem_append.mp hc with hold | hnew
          · exact hst c hold hcs
          · refine ⟨s, hsub _ (by simp), ?_⟩
            have : c = ⟨st.messages ++ [toolMsg s], none, true,
                some (streams st.idx)⟩ := by simpa using hnew
            subst this
            exact getLast?_append_singleton st.messages (toolMsg s)
      | other ty =>
          simp only [foldBlocks]
          exact ih st (fun b hb => hsub b (by simp [hb])) hst

theorem foldBlocks_messages_inv (streams : Nat → List String)
    (P : Message → Prop) (blocks : List ContentBlock) :
    ∀ st : FoldState,
      (∀ m ∈ st.messages, P m) →
      (∀ s, P (toolMsg s)) →
      ∀ m ∈ (foldBlocks streams st blocks).messages, P m := by
  induction blocks with
  | nil => intro st hst _ m hm; exact hst m (by simpa [foldBlocks] using hm)
  | cons b rest ih =>
      intro st hst htool m hm
      cases b with
      | text s =>
          refine ih _ ?_ htool m (by simpa [foldBlocks] using hm)
          intro m0 hm0
          rcases List.mem_append.mp hm0 with h0 | h0
          · exact hst m0 h0
          · simp at h0; subst h0; exact htool s
      | other ty =>
          exact ih st hst htool m (by simpa [foldBlocks] using hm)

/-! ## Concrete environments used as witnesses and counterexamples -/

/-- The rendered Python arguments dict of the spec scenarios. -/
def argsWA : String := "\x7b\x27state\x27: \x27WA\x27\x7d"

/-- A one-tool catalog matching the spec scenarios. -/
def forecastTool : Tool :=
  ⟨"get_forecast", some "Get the weather forecast", some (SchemaV.node "state")⟩

/-- Decision with no tool calls and a plain content answer. -/
def envNoTool : Env :=
  { tools := [forecastTool]
    decision := ⟨some "I don\x27t understand", none⟩
    callTool := fun _ _ => ⟨true, []⟩
    streams := fun _ => []
    uuids := fun _ => "u0" }

/-- Decision with one tool call whose result has two text blocks. -/
def envTwoBlocks : Env :=
  { tools := [forecastTool]
    decision := ⟨none, some [⟨⟨"get_forecast", argsWA⟩⟩]⟩
    callTool := fun _ _ =>
      ⟨false, [ContentBlock.text "block one", ContentBlock.text "block two"]⟩
    streams := fun _ => ["x"]
    uuids := fun _ => "u0" }

/-- Decision with two tool calls; the invocation succeeds with one text block. -/
def envTwoCalls : Env :=
  { tools := [forecastTool]
    decision := ⟨none, some [⟨⟨"get_forecast", argsWA⟩⟩, ⟨⟨"get_alerts", "\x7b\x7d"⟩⟩]⟩
    callTool := fun _ _ => ⟨false, [ContentBlock.text "Sunny, 65F"]⟩
    streams := fun _ => ["The", " forecast", " is sunny."]
    uuids := fun _ => "u0" }

/-- Decision with one tool call whose invocation reports an error. -/
def envErr : Env :=
  { tools := [forecastTool]
    decision := ⟨none, some [⟨⟨"get_forecast", argsWA⟩⟩]⟩
    callTool := fun _ _ => ⟨true, []⟩
    streams := fun _ => ["never"]
    uuids := fun _ => "u0" }

/-- The success scenario of the spec: one tool call, one text block
"72°F, clear", streamed chunks "The", " forecast", " is sunny.". -/
def envOk : Env :=
  { tools := [forecastTool]
    decision := ⟨none, some [⟨⟨"get_forecast", argsWA⟩⟩]⟩
    callTool := fun _ _ => ⟨false, [ContentBlock.text "72°F, clear"]⟩
    streams := fun _ => ["The", " forecast", " is sunny."]
    uuids := fun _ => "u0" }

/-- Decision with one tool call whose successful result has no text block. -/
def envNoText : Env :=
  { tools := [forecastTool]
    decision := ⟨none, some [⟨⟨"get_forecast", argsWA⟩⟩]⟩
    callTool := fun _ _ => ⟨false, [ContentBlock.other "image"]⟩
    streams := fun _ => ["never"]
    uuids := fun _ => "u0" }

/-! ## Claims -/

/-- C1: with zero tool calls the code makes exactly one chat call and invokes
no tool, but the `if tool_calls:` body is skipped and everything after it is
commented out, so `process_query` falls off the end and returns Python `None`
(`Option.none`) instead of the decision content — here
`some "I don\x27t understand"` — contradicting its own `-> str` annotation
and the claim's required final answer. -/
theorem C1_zero_toolcalls_returns_none :
    (process_query "what is MCP" envNoTool).chatCalls.length = 1 ∧
    (process_query "what is MCP" envNoTool).toolInvocations = [] ∧
    (process_query "what is MCP" envNoTool).result = none ∧
    envNoTool.decision.content = some "I don\x27t understand" ∧
    (process_query "what is MCP" envNoTool).result ≠ envNoTool.decision.content := by
  decide

/-- C3 counterexample: on a descriptor whose optional description and schema
are absent, `convert_to_openai_format` emits null for both fields instead of
the claimed `""` and empty-object defaults, so it differs from the spec-text
conversion `toChatSchema_specDefaults`. -/
theorem C3_counterexample :
    convert_to_openai_format [⟨"get_forecast", none, none⟩] ≠
      toChatSchema_specDefaults [⟨"get_forecast", none, none⟩] ∧
    ((convert_to_openai_format [⟨"get_forecast", none, none⟩]).map
      fun f => f.function.description) = [none] := by
  decide

/-- C3 (amended): for every sequence of N tool descriptors,
`convert_to_openai_format` returns exactly N entries, each tagged
`type = "function"`, preserving each tool's name and the input order, and it
is total — but absent optional fields are passed through as null rather than
replaced by `""` or the empty object. -/
theorem C3_total_preserving (tools : List Tool) :
    (convert_to_openai_format tools).length = tools.length ∧
    ((convert_to_openai_format tools).map fun f => f.function.name) =
      tools.map Tool.name ∧
    (∀ f ∈ convert_to_openai_format tools, f.type = "function") ∧
    ((convert_to_openai_format tools).map fun f => f.function.description) =
      tools.map Tool.description ∧
    ((convert_to_openai_format tools).map fun f => f.function.parameters) =
      tools.map Tool.inputSchema := by
  refine ⟨?_, ?_, ?_, ?_, ?_⟩ <;>
    simp [convert_to_openai_format, List.map_map]

/-- C10: a server script path ending in neither ".py" nor ".js" makes
`connect_to_server` raise `ValueError` before `StdioServerParameters` is
built (the error branch yields no launch command, so no process is launched
and no session created); a ".py" path launches with command "python" and a
".js" path with command "node". -/
theorem C10_connect_dispatch (p : String) :
    (pyEndsWith p ".py" = false → pyEndsWith p ".js" = false →
      connect_to_server p = Except.error "Server script must be a .py or .js file") ∧
    (pyEndsWith p ".py" = true →
      connect_to_server p = Except.ok ("python", [p])) ∧
    (pyEndsWith p ".js" = true → pyEndsWith p ".py" = false →
      connect_to_server p = Except.ok ("node", [p])) := by
  unfold connect_to_server
  cases h1 : pyEndsWith p ".py" <;> cases h2 : pyEndsWith p ".js" <;>
    simp [h1, h2]

theorem C10_connect_dispatch_witness :
    connect_to_server "weather.txt" =
      Except.error "Server script must be a .py or .js file" ∧
    connect_to_server "weather.py" = Except.ok ("python", ["weather.py"]) ∧
    connect_to_server "weather.js" = Except.ok ("node", ["weather.js"]) :=
  ⟨(C10_connect_dispatch "weather.txt").1 (by decide) (by decide),
   (C10_connect_dispatch "weather.py").2.1 (by decide),
   (C10_connect_dispatch "weather.js").2.2 (by decide) (by decide)⟩

/-- C2 counterexample: the streamed summarization `ollama.chat` call sits
inside the per-text-block loop (client.py lines 169-185), so a tool result
with two text blocks produces two summarization calls — the claimed "at most
one summarization (streamed) chat call ... regardless of how many text
content blocks the tool result contains" is false. -/
theorem C2_counterexample :
    ¬ streamCount (process_query "weather in Seattle" envTwoBlocks) ≤ 1 := by
  decide

/-- C2 (amended): for every query, `process_query` makes at most one tool
invocation round, and it makes one streamed summarization chat call per text
content block of the invoked tool's result (zero such calls when no tool is
invoked or the invocation fails) — so at most one summarization call only
when the result has at most one text block. -/
theorem C2_single_round (q : String) (env : Env) :
    (process_query q env).toolInvocations.length ≤ 1 ∧
    (streamCount (process_query q env) = 0 ∨
      ∃ n a, (process_query q env).toolInvocations = [(n, a)] ∧
        streamCount (process_query q env) = countText (env.callTool n a).content) := by
  unfold process_query
  cases hnorm : normalizeToolCalls env.uuids env.decision with
  | nil =>
      rw [runToolPhase_nil]
      exact ⟨by simp, Or.inl (by simp [streamCount, decisionCall])⟩
  | cons tc tl =>
      cases he : (env.callTool tc.function.name tc.function.arguments).isError with
      | true =>
          rw [runToolPhase_cons_error q env tc tl he]
          exact ⟨by simp, Or.inl (by simp [streamCount, decisionCall])⟩
      | false =>
          rw [runToolPhase_cons_ok q env tc tl he]
          refine ⟨by simp, Or.inr ⟨tc.function.name, tc.function.arguments, by simp, ?_⟩⟩
          show (List.filter _ (foldBlocks _ _ _).chatCalls).length = _
          rw [foldBlocks_streamLen]
          simp [decisionCall, streamCount]

/-- C4: whenever the decision contains one or more tool calls, exactly the
first is invoked through the session (the `for tool_call in tool_calls` loop
returns in its first iteration on both the error and the success path), so
the invocation trace is exactly the first call's name and arguments. -/
theorem C4_first_call_only (q : String) (env : Env) (tc : OllamaToolCall)
    (rest : List OllamaToolCall)
    (hdec : env.decision.tool_calls = some (tc :: rest)) :
    (process_query q env).toolInvocations =
      [(tc.function.name, tc.function.arguments)] := by
  unfold process_query
  rw [normalizeToolCalls_cons env.uuids env.decision tc rest hdec]
  cases he : (env.callTool tc.function.name tc.function.arguments).isError with
  | true => rw [runToolPhase_cons_error _ _ _ _ he]
  | false => rw [runToolPhase_cons_ok _ _ _ _ he]

theorem C4_first_call_only_witness :
    envTwoCalls.decision.tool_calls =
      some [⟨⟨"get_forecast", argsWA⟩⟩, ⟨⟨"get_alerts", "\x7b\x7d"⟩⟩] ∧
    (process_query "weather in Seattle" envTwoCalls).toolInvocations =
      [("get_forecast", argsWA)] :=
  ⟨rfl, C4_first_call_only "weather in Seattle" envTwoCalls
    ⟨⟨"get_forecast", argsWA⟩⟩ [⟨⟨"get_alerts", "\x7b\x7d"⟩⟩] rfl⟩

/-- C5: when the invoked tool reports `isError`, no summarization (streamed)
chat call is made and the returned text is exactly
`"function call for <name> failed with arguments <args>"` built from the
invoked tool's name and rendered arguments (client.py lines 159-160). -/
theorem C5_error_template (q : String) (env : Env) (tc : OllamaToolCall)
    (rest : List OllamaToolCall)
    (hdec : env.decision.tool_calls = some (tc :: rest))
    (herr : (env.callTool tc.function.name tc.function.arguments).isError = true) :
    (process_query q env).result =
      some (failureMessage tc.function.name tc.function.arguments) ∧
    streamCount (process_query q env) = 0 := by
  unfold process_query
  rw [normalizeToolCalls_cons env.uuids env.decision tc rest hdec,
    runToolPhase_cons_error _ _ _ _ herr]
  exact ⟨rfl, by simp [streamCount, decisionCall]⟩

theorem C5_error_template_witness :
    (process_query "weather in Seattle" envErr).result =
      some "function call for get_forecast failed with arguments \x7b\x27state\x27: \x27WA\x27\x7d" ∧
    streamCount (process_query "weather in Seattle" envErr) = 0 :=
  C5_error_template "weather in Seattle" envErr ⟨⟨"get_forecast", argsWA⟩⟩ []
    rfl rfl

/-- C6: on a successful invocation, every text block of the result is
appended to history as `{"role": "tool", "content": block text}`; every
streamed (summarization) chat call is made on a history whose last element is
such a tool message for one of the result's text blocks; and the returned
answer is the concatenation, in arrival order, of all chunk contents of all
streamed calls. -/
theorem C6_success_summarize (q : String) (env : Env) (tc : OllamaToolCall)
    (rest : List OllamaToolCall) (r : ToolResultData)
    (hdec : env.decision.tool_calls = some (tc :: rest))
    (hcall : env.callTool tc.function.name tc.function.arguments = r)
    (herr : r.isError = false)
    (_hone : 1 ≤ countText r.content) :
    (∀ s, ContentBlock.text s ∈ r.content →
      toolMsg s ∈ (process_query q env).messages) ∧
    (∀ c ∈ (process_query q env).chatCalls, c.stream = true →
      ∃ s, ContentBlock.text s ∈ r.content ∧
        c.messages.getLast? = some (toolMsg s)) ∧
    (process_query q env).result =
      some (String.join
        (((process_query q env).chatCalls.filterMap ChatCall.chunks).flatten)) := by
  have he : (env.callTool tc.function.name tc.function.arguments).isError = false := by
    rw [hcall]; exact herr
  unfold process_query
  rw [normalizeToolCalls_cons env.uuids env.decision tc rest hdec,
    runToolPhase_cons_ok _ _ _ _ he]
  rw [show (env.callTool tc.function.name tc.function.arguments).content
      = r.content by rw [hcall]]
  refine ⟨?_, ?_, ?_⟩
  · intro s hs
    exact foldBlocks_text_mem env.streams r.content _ s hs
  · refine foldBlocks_stream_lastTool env.streams r.content r.content _
      (fun b hb => hb) ?_
    intro c hc hcs
    simp only [List.mem_singleton] at hc
    subst hc
    simp [decisionCall] at hcs
  · show some (String.join _) = some (String.join _)
    congr 1
    rw [foldBlocks_final_text env.streams r.content _ (by simp [decisionCall])]

theorem C6_success_summarize_witness :
    envOk.decision.tool_calls = some [⟨⟨"get_forecast", argsWA⟩⟩] ∧
    toolMsg "72°F, clear" ∈ (process_query "weather in Seattle" envOk).messages ∧
    (∀ c ∈ (process_query "weather in Seattle" envOk).chatCalls,
      c.stream = true →
      ∃ s, ContentBlock.text s ∈ [ContentBlock.text "72°F, clear"] ∧
        c.messages.getLast? = some (toolMsg s)) ∧
    (process_query "weather in Seattle" envOk).result =
      some "The forecast is sunny." := by
  have h := C6_success_summarize "weather in Seattle" envOk
    ⟨⟨"get_forecast", argsWA⟩⟩ [] ⟨false, [ContentBlock.text "72°F, clear"]⟩
    rfl rfl rfl (by decide)
  exact ⟨rfl, h.1 "72°F, clear" (by decide), h.2.1, by decide⟩

/-- C7: on a successful invocation whose result has no text content block,
the per-block loop body never runs, `final_text` stays empty, no streamed
chat call is made, and the returned answer is `"".join([])`, the empty
string. -/
theorem C7_zero_text_blocks (q : String) (env : Env) (tc : OllamaToolCall)
    (rest : List OllamaToolCall) (r : ToolResultData)
    (hdec : env.decision.tool_calls = some (tc :: rest))
    (hcall : env.callTool tc.function.name tc.function.arguments = r)
    (herr : r.isError = false)
    (hzero : countText r.content = 0) :
    (process_query q env).result = some "" ∧
    streamCount (process_query q env) = 0 := by
  have he : (env.callTool tc.function.name tc.function.arguments).isError = false := by
    rw [hcall]; exact herr
  unfold process_query
  rw [normalizeToolCalls_cons env.uuids env.decision tc rest hdec,
    runToolPhase_cons_ok _ _ _ _ he]
  rw [show (env.callTool tc.function.name tc.function.arguments).content
      = r.content by rw [hcall]]
  rw [foldBlocks_no_text env.streams r.content _ hzero]
  exact ⟨rfl, by simp [streamCount, decisionCall]⟩

theorem C7_zero_text_blocks_witness :
    (process_query "weather in Seattle" envNoText).result = some "" ∧
    streamCount (process_query "weather in Seattle" envNoText) = 0 :=
  C7_zero_text_blocks "weather in Seattle" envNoText
    ⟨⟨"get_forecast", argsWA⟩⟩ [] ⟨false, [ContentBlock.other "image"]⟩
    rfl rfl rfl rfl

/-- C8: in every history state reachable during one `process_query` run
(history is append-only, so every reachable state is a prefix of the final
one), a message with role `assistant` and a present, non-null `tool_calls`
field has `content = None`: the only assistant append is at client.py lines
163-167 with `"content": None`. -/
theorem C8_assistant_content_null (q : String) (env : Env) :
    ∀ m ∈ (process_query q env).messages, m.role = Role.assistant →
      m.tool_calls ≠ none → m.content = none := by
  unfold process_query
  cases hnorm : normalizeToolCalls env.uuids env.decision with
  | nil =>
      rw [runToolPhase_nil]
      intro m hm hrole _
      simp only [List.mem_singleton] at hm
      subst hm
      simp [userMsg] at hrole
  | cons tc tl =>
      cases he : (env.callTool tc.function.name tc.function.arguments).isError with
      | true =>
          rw [runToolPhase_cons_error _ _ _ _ he]
          intro m hm hrole _
          simp only [List.mem_singleton] at hm
          subst hm
          simp [userMsg] at hrole
      | false =>
          rw [runToolPhase_cons_ok _ _ _ _ he]
          refine foldBlocks_messages_inv env.streams
            (fun m => m.role = Role.assistant → m.tool_calls ≠ none →
              m.content = none) _ _ ?_ ?_
          · intro m0 hm0
            rcases List.mem_cons.mp hm0 with h0 | h0
            · subst h0; intro hrole; simp [userMsg] at hrole
            · simp only [List.mem_singleton] at h0
              subst h0; intro _ _; rfl
          · intro s hrole; simp [toolMsg] at hrole

theorem C8_assistant_content_null_witness :
    pendingMsg ⟨"u0", "function", ⟨"get_forecast", argsWA⟩⟩ ∈
      (process_query "weather in Seattle" envOk).messages ∧
    (pendingMsg ⟨"u0", "function", ⟨"get_forecast", argsWA⟩⟩).content = none :=
  ⟨by decide, C8_assistant_content_null "weather in Seattle" envOk
    (pendingMsg ⟨"u0", "function", ⟨"get_forecast", argsWA⟩⟩) (by decide)
    (by decide) (by decide)⟩

/-- C9: when the invoked tool reports an error, the history is left at its
initial state, exactly the single user message — the assistant message
recording the pending tool call is appended only on the success branch
(client.py lines 163-167 sit in the `else` of the `isError` check), even
though the invocation itself did happen. -/
theorem C9_error_history_unchanged (q : String) (env : Env)
    (tc : OllamaToolCall) (rest : List OllamaToolCall)
    (hdec : env.decision.tool_calls = some (tc :: rest))
    (herr : (env.callTool tc.function.name tc.function.arguments).isError = true) :
    (process_query q env).messages = [userMsg q] ∧
    (process_query q env).toolInvocations =
      [(tc.function.name, tc.function.arguments)] := by
  unfold process_query
  rw [normalizeToolCalls_cons env.uuids env.decision tc rest hdec,
    runToolPhase_cons_error _ _ _ _ herr]
  exact ⟨rfl, rfl⟩

theorem C9_error_history_unchanged_witness :
    (process_query "weather in Seattle" envErr).messages =
      [userMsg "weather in Seattle"] ∧
    (process_query "weather in Seattle" envErr).toolInvocations =
      [("get_forecast", argsWA)] :=
  C9_error_history_unchanged "weather in Seattle" envErr
    ⟨⟨"get_forecast", argsWA⟩⟩ [] rfl rfl
